import Mathlib

/-!
Verification development for the collaboration-docs repository
(server.js endpoint handlers, db role resolution, frontend create guard,
and the real-time merge layer contract).

The server keeps, per document, a git repository holding one file
(`document.md`).  We embed a document's persisted state as the list of
commits (newest first, as returned by `git log`) together with the current
working-tree content of that file.  Endpoint handlers are embedded as pure
functions from that state (plus the request data and the requester's
resolved role) to a response and a new state.
-/

namespace CollabDocs

/-- Roles from the permissions table: role IN ('owner', 'writer', 'reader'). -/
inductive Role where
  | owner
  | writer
  | reader
deriving DecidableEq, Repr

/-- A git commit as surfaced by `git log` / `git show`: its hash, subject
message, and the full content of the document file at that commit. -/
structure Commit where
  hash : String
  message : String
  content : String
deriving DecidableEq, Repr

/-- Persisted state of one document: the commit log (newest first, so the
head is the first element) and the working-tree content of `document.md`. -/
structure DocState where
  repo : List Commit
  file : String
deriving DecidableEq, Repr

/-- Content of the file at HEAD (`""` for an empty repo; every document is
created with an initial commit, so the empty case does not arise in use). -/
def headC (repo : List Commit) : String :=
  match repo with
  | [] => ""
  | c :: _ => c.content

/-- `git show hash:document.md`: the file content stored at the commit with
the given hash, or `none` when no commit in this document's chain has that
hash (in which case the real `git show` throws). -/
def gitShow (repo : List Commit) (hash : String) : Option String :=
  (repo.find? (fun c => c.hash == hash)).map (·.content)

/-- Responses of the rollback endpoint.  The handler 404s when the document
row is absent, answers `{ success: true }` when its git operations go
through, and 500s from its catch block when one of them throws. -/
inductive RbResp where
  | success
  | notFoundDoc
  | serverError
deriving DecidableEq, Repr

/-- Core of POST /api/documents/:id/rollback for an existing document
(server.js, current version).  The handler:
reads the target content with `git show hash:fsPath` — on error the catch
falls back to `''`; snapshots the current file content; writes the target
content to the file; builds a commit message from the target commit's
subject (falling back to a default); stages the file; computes
`hasChanges` from `git status` (staged content versus HEAD — the file is
tracked from the document's initial commit) or from the snapshot differing
from the target; then commits — with `--allow-empty` when `hasChanges` is
false.  In the `hasChanges` branch the commit is a plain `git commit`: it
fails with `nothing to commit` whenever the staged tree equals HEAD (which
happens when `hasChanges` held only via the snapshot differing from the
target), the thrown error reaches the outer catch, the response is a 500,
and no commit is appended — the file is left written.  `nh` stands for
the hash git assigns to the new commit. -/
def rollbackCore (st : DocState) (hash nh : String) : RbResp × DocState :=
  let fileContent := (gitShow st.repo hash).getD ""
  let currentContent := st.file
  let afterWrite : DocState := { st with file := fileContent }
  let commitMessage :=
    match st.repo.find? (fun c => c.hash == hash) with
    | some c => "Revert to: " ++ c.message.trim.take 50
    | none => "Revert to previous version"
  let staged_differs := fileContent != headC st.repo
  let hasChanges := staged_differs || (currentContent != fileContent)
  if hasChanges then
    if staged_differs then
      (RbResp.success,
        { afterWrite with repo := ⟨nh, commitMessage, fileContent⟩ :: afterWrite.repo })
    else
      (RbResp.serverError, afterWrite)
  else
    (RbResp.success,
      { afterWrite with repo := ⟨nh, commitMessage, fileContent⟩ :: afterWrite.repo })

/-- POST /api/documents/:id/rollback.  The request body carries only the
target `hash`; the handler performs no permission lookup and never reads a
user identity, so the requester's role (passed here to state claims about
it) is unused by the computation, mirroring the source. -/
def rollbackEndpoint (requesterRole : Option Role) (doc : Option DocState)
    (hash nh : String) : RbResp × Option DocState :=
  match doc with
  | none => (RbResp.notFoundDoc, none)
  | some st => ((rollbackCore st hash nh).1, some (rollbackCore st hash nh).2)

/-- Responses of the save endpoint. `okQueued` is the coalesced answer
`{ success: true, queued: true }` returned when a save is already in
flight for the document. -/
inductive SaveResp where
  | ok
  | okQueued
  | forbidden
  | notFound
  | storageError
deriving DecidableEq, Repr

/-- Inputs the save handler reads before touching the document: the
requester's resolved role, whether `gitLocks` already holds an entry for
the document, and the document's state (`none` = no db row). -/
structure SaveCtx where
  role : Option Role
  lockHeld : Bool
  doc : Option DocState
deriving DecidableEq, Repr

/-- Result of the save handler: the HTTP response, the document state
afterwards, and whether `gitLocks` still holds an entry for the document. -/
structure SaveOut where
  resp : SaveResp
  doc : Option DocState
  lockAfter : Bool
deriving DecidableEq, Repr

/-- Injected I/O outcome for a save: no failure, `fs.writeFileSync`
throwing (file unchanged), or a git operation throwing after the write
(file written, no commit). -/
inductive Fault where
  | nofault
  | atWrite
  | atGit
deriving DecidableEq, Repr

/-- POST /api/documents/:id/save (server.js, current version).  In source
order: permission check (`!role || (role !== 'owner' && role !== 'writer')`
→ 403 before any I/O); gitLocks check (entry present → coalesced success);
acquire the lock; db lookup (no row → 404, lock deleted); write the file;
`git status` and commit only when the file changed; the lock entry is
deleted on the success, not-found and catch paths alike. -/
def saveHandler (ctx : SaveCtx) (content nh : String) (f : Fault) : SaveOut :=
  match ctx.role with
  | none => ⟨SaveResp.forbidden, ctx.doc, ctx.lockHeld⟩
  | some r =>
    if r ≠ Role.owner ∧ r ≠ Role.writer then
      ⟨SaveResp.forbidden, ctx.doc, ctx.lockHeld⟩
    else if ctx.lockHeld then
      ⟨SaveResp.okQueued, ctx.doc, true⟩
    else
      match ctx.doc with
      | none => ⟨SaveResp.notFound, none, false⟩
      | some st =>
        match f with
        | Fault.atWrite => ⟨SaveResp.storageError, some st, false⟩
        | Fault.atGit => ⟨SaveResp.storageError, some { st with file := content }, false⟩
        | Fault.nofault =>
          let st1 : DocState := { st with file := content }
          if st1.file != headC st1.repo then
            ⟨SaveResp.ok, some { st1 with repo := ⟨nh, "Update document", content⟩ :: st1.repo }, false⟩
          else
            ⟨SaveResp.ok, some st1, false⟩

/-- getUserDocumentRole (server.js): look the document up; absent → null;
the requester is the owner_id → 'owner' (the permissions table is not
consulted); otherwise the permissions row for (document, user) decides;
no row → null.  `docs` is the documents table projected to
(id, owner_id); `perms` is the permissions table as (document_id,
user_id, role). -/
def getUserDocumentRole (docs : List (Nat × Nat)) (perms : List (Nat × Nat × Role))
    (userId documentId : Nat) : Option Role :=
  match docs.find? (fun d => d.1 == documentId) with
  | none => none
  | some d =>
    if d.2 == userId then some Role.owner
    else
      match perms.find? (fun p => p.1 == documentId && p.2.1 == userId) with
      | some p => some p.2.2
      | none => none

/-- Responses of POST /api/documents.  `invalid` is the response the spec's
error taxonomy prescribes for an empty name; the handler can only answer
`ok` or, from its catch block, a 500. -/
inductive CreateResp where
  | ok
  | invalid
  | serverError
deriving DecidableEq, Repr

/-- Observable effects of POST /api/documents: response, whether a
documents row was inserted, the new document's commit log and file, and
whether the owner permission row was added. -/
structure CreateOut where
  resp : CreateResp
  inserted : Bool
  repo : List Commit
  file : Option String
  ownerPermAdded : Bool
deriving DecidableEq, Repr

/-- POST /api/documents (server.js, current version).  The handler performs
no validation of `name`: it inserts the row (an empty string satisfies the
NOT NULL constraint), initialises the git repo, writes an empty file,
creates the initial commit `Create document <name>`, and adds the owner
permission.  `dbFail` injects the only failure path (the catch → 500). -/
def createHandler (name : String) (userId newDocId : Nat) (dbFail : Bool)
    (initHash : String) : CreateOut :=
  if dbFail then
    ⟨CreateResp.serverError, false, [], none, false⟩
  else
    ⟨CreateResp.ok, true, [⟨initHash, "Create document " ++ name, ""⟩], some "", true⟩

/-- The create-document click handler (src/main.js): `if (!name) return;` —
an empty name sends no request at all (and shows no error). -/
def clientSendsCreateRequest (name : String) : Bool :=
  name != ""

/-- A sample document used by witnesses: one initial commit whose content
is the current file content. -/
def d0 : DocState :=
  ⟨[⟨"h0", "Create document demo", "Hello"⟩], "Hello"⟩

/-!
Real-time merge layer (Convergent Text Store).

Modelled from the spec: the merge layer is provided by the Y.js library
(a third-party dependency, not part of this repository); `src/main.js`
only creates a `Y.Doc`, attaches it to the editor and hands operations to
the provider.  Following the spec's contract (§4.1, §9): an operation is
an atomic insert/delete tagged with a causal identifier (origin replica id
and a monotonically increasing counter); a replica's state is the set of
uniquely-identified operations applied so far, merged by adding incoming
operations to that set (hence commutative, associative and idempotent);
materialization is a deterministic function of the set — live inserts
ordered by the lexicographic total order over (counter, origin-id), with
inserts targeted by a delete treated as tombstones.
-/

/-- Causal identifier of an operation: (origin replica, local counter). -/
structure OpId where
  origin : Nat
  counter : Nat
deriving DecidableEq, Repr

/-- Modelled from the spec: an atomic edit — an insert carrying content, or
a delete targeting a previously inserted operation's id. -/
structure Op where
  id : OpId
  isDelete : Bool
  content : String
  target : OpId
deriving DecidableEq, Repr

/-- Injective key used to total-order operations: causal counter first,
then origin id (the spec's tie-break), then the remaining fields so that
distinct operations never compare equal. -/
def opKey (o : Op) : Nat ×ₗ (Nat ×ₗ (Bool ×ₗ (String ×ₗ (Nat ×ₗ Nat)))) :=
  toLex (o.id.counter, toLex (o.id.origin, toLex (o.isDelete,
    toLex (o.content, toLex (o.target.origin, o.target.counter)))))

instance : LinearOrder Op :=
  LinearOrder.lift' opKey (by
    intro a b h
    obtain ⟨⟨ao, ac⟩, ad, acont, ⟨ato, atc⟩⟩ := a
    obtain ⟨⟨bo, bc⟩, bd, bcont, ⟨bto, btc⟩⟩ := b
    simp only [opKey, toLex_inj, Prod.mk.injEq] at h
    simp_all)

/-- Modelled from the spec: a replica's state — the set of operations it
has applied. -/
def Replica := Finset Op
deriving DecidableEq

/-- Modelled from the spec: merging one operation into a replica adds it to
the replica's operation set (redelivery and reordering are absorbed by the
set). -/
def applyOp (r : Finset Op) (o : Op) : Finset Op :=
  insert o r

/-- Apply a sequence of received operations in order. -/
def applyOps (r : Finset Op) (l : List Op) : Finset Op :=
  l.foldl applyOp r

/-- An insert is dead when some delete in the set targets its id. -/
def deletedIn (r : Finset Op) (o : Op) : Prop :=
  ∃ d ∈ r, d.isDelete = true ∧ d.target = o.id

instance (r : Finset Op) (o : Op) : Decidable (deletedIn r o) := by
  unfold deletedIn; infer_instance

/-- Modelled from the spec: deterministic materialization — the live
(non-tombstoned) inserts, ordered by the total order over causal ids, and
their contents concatenated. -/
def materialize (r : Finset Op) : String :=
  let live := r.filter (fun o => o.isDelete = false ∧ ¬ deletedIn r o)
  String.join ((live.sort (· ≤ ·)).map (·.content))

/-!
Concurrency model for save and rollback requests.

The server is a single-threaded cooperative event loop: a request handler
runs atomically between `await` points.  We embed an in-flight request as
a task with a program counter, where one step is one of the handler's
atomic blocks (the code between two awaits), and shared state as the
per-document `gitLocks` entry, working-tree file and commit log.  A
schedule (list of booleans: `false` steps task `a`, `true` steps task `b`)
chooses the interleaving.  Both tasks model requests that already passed
the save handler's permission lookup (which touches only the database).

Save task steps (POST /api/documents/:id/save):
0 check `gitLocks` and either coalesce or acquire; 1 db row lookup;
2 `fs.writeFileSync`; 3 `git status` (branch on whether the file differs
from HEAD); 4 `git add`; 5 `git commit`; 6 delete the lock entry and
respond.

Rollback task steps (POST /api/documents/:id/rollback) — note the handler
never touches `gitLocks`:
0 db row lookup; 1 `git log`; 2 `git show hash:file` (catch → `''`);
3 read current content and `fs.writeFileSync` the target content;
4 `git show` for the commit subject; 5 `git add`; 6 `git status`;
7 `git commit` (both branches commit, `--allow-empty` when unchanged).
-/

/-- Shared per-document state seen by concurrently running handlers. -/
structure Shared where
  lock : Bool
  file : String
  repo : List Commit
deriving DecidableEq, Repr

/-- What a task is doing: a save carrying the content to persist, or a
rollback carrying the target hash. -/
inductive TaskKind where
  | save (content : String)
  | rollback (hash : String)
deriving DecidableEq, Repr

/-- Answers a task can finish with. -/
inductive Resp where
  | ok
  | coalesced
deriving DecidableEq, Repr

/-- An in-flight request: its kind, program counter, task-local values
(staged index content, `git show` result, computed commit message) and its
response once finished (pc 100). -/
structure Task where
  kind : TaskKind
  pc : Nat
  staged : String
  target : String
  msg : String
  resp : Option Resp
deriving DecidableEq, Repr

/-- A fresh save task for the given content. -/
def mkSaveTask (content : String) : Task :=
  ⟨TaskKind.save content, 0, "", "", "", none⟩

/-- A fresh rollback task for the given target hash. -/
def mkRollbackTask (hash : String) : Task :=
  ⟨TaskKind.rollback hash, 0, "", "", "", none⟩

/-- Observable events of a run, used to speak about interleavings. -/
inductive Ev where
  | saveAcquire
  | saveCoalesced
  | saveWrite
  | saveAdd
  | saveCommit
  | saveRelease
  | rbWrite
  | rbAdd
  | rbCommit
deriving DecidableEq, Repr

/-- One atomic block of the save handler. -/
def stepSave (c : String) (sh : Shared) (t : Task) : Shared × Task × Option Ev :=
  if t.pc = 0 then
    if sh.lock then (sh, { t with pc := 100, resp := some Resp.coalesced }, some Ev.saveCoalesced)
    else ({ sh with lock := true }, { t with pc := 1 }, some Ev.saveAcquire)
  else if t.pc = 1 then
    (sh, { t with pc := 2 }, none)
  else if t.pc = 2 then
    ({ sh with file := c }, { t with pc := 3 }, some Ev.saveWrite)
  else if t.pc = 3 then
    if sh.file = headC sh.repo then (sh, { t with pc := 6 }, none)
    else (sh, { t with pc := 4 }, none)
  else if t.pc = 4 then
    (sh, { t with pc := 5, staged := sh.file }, some Ev.saveAdd)
  else if t.pc = 5 then
    ({ sh with repo := ⟨"s" ++ toString sh.repo.length, "Update document", t.staged⟩ :: sh.repo },
      { t with pc := 6 }, some Ev.saveCommit)
  else if t.pc = 6 then
    ({ sh with lock := false }, { t with pc := 100, resp := some Resp.ok }, some Ev.saveRelease)
  else
    (sh, t, none)

/-- One atomic block of the rollback handler. -/
def stepRollback (h : String) (sh : Shared) (t : Task) : Shared × Task × Option Ev :=
  if t.pc = 0 then
    (sh, { t with pc := 1 }, none)
  else if t.pc = 1 then
    (sh, { t with pc := 2 }, none)
  else if t.pc = 2 then
    (sh, { t with pc := 3, target := (gitShow sh.repo h).getD "" }, none)
  else if t.pc = 3 then
    ({ sh with file := t.target }, { t with pc := 4 }, some Ev.rbWrite)
  else if t.pc = 4 then
    let m :=
      match sh.repo.find? (fun c => c.hash == h) with
      | some c => "Revert to: " ++ c.message.trim.take 50
      | none => "Revert to previous version"
    (sh, { t with pc := 5, msg := m }, none)
  else if t.pc = 5 then
    (sh, { t with pc := 6, staged := sh.file }, some Ev.rbAdd)
  else if t.pc = 6 then
    (sh, { t with pc := 7 }, none)
  else if t.pc = 7 then
    ({ sh with repo := ⟨"r" ++ toString sh.repo.length, t.msg, t.staged⟩ :: sh.repo },
      { t with pc := 100, resp := some Resp.ok }, some Ev.rbCommit)
  else
    (sh, t, none)

/-- Step a task according to its kind. -/
def stepTask (sh : Shared) (t : Task) : Shared × Task × Option Ev :=
  match t.kind with
  | TaskKind.save c => stepSave c sh t
  | TaskKind.rollback h => stepRollback h sh t

/-- The two-task system. -/
structure Sys where
  sh : Shared
  a : Task
  b : Task
deriving DecidableEq, Repr

/-- Step the system: `false` steps task `a`, `true` steps task `b`. -/
def stepSys (s : Sys) (who : Bool) : Sys × Option Ev :=
  if who then
    let r := stepTask s.sh s.b
    (⟨r.1, s.a, r.2.1⟩, r.2.2)
  else
    let r := stepTask s.sh s.a
    (⟨r.1, r.2.1, s.b⟩, r.2.2)

/-- Run the system under a schedule. -/
def runSys (s : Sys) : List Bool → Sys
  | [] => s
  | w :: ws => runSys (stepSys s w).1 ws

/-- Run the system under a schedule, collecting the emitted events. -/
def runEv (s : Sys) : List Bool → Sys × List Ev
  | [] => (s, [])
  | w :: ws =>
    let r := stepSys s w
    let rest := runEv r.1 ws
    (rest.1, r.2.toList ++ rest.2)

/-- Initial system: lock free, given file and log, one save task `a` and a
second task `b`. -/
def sys0 (cA : String) (bTask : Task) (f0 : String) (repo0 : List Commit) : Sys :=
  ⟨⟨false, f0, repo0⟩, mkSaveTask cA, bTask⟩

/-- Run `n` steps of task `a` only. -/
def runA (n : Nat) (s : Sys) : Sys :=
  runSys s (List.replicate n false)

/-- Sample insert operations for the merge-layer witnesses. -/
def opA : Op := ⟨⟨1, 1⟩, false, "Hello ", ⟨0, 0⟩⟩

/-- A second sample insert operation. -/
def opB : Op := ⟨⟨2, 2⟩, false, "World", ⟨0, 0⟩⟩

/-- Concrete scenario for the save/rollback race: a save of fresh content
runs against a rollback to the initial commit of a two-commit document. -/
def c3sys : Sys :=
  sys0 "NEW CONTENT" (mkRollbackTask "h0") "Hello"
    [⟨"h1", "Update document", "Hello"⟩, ⟨"h0", "Create document d", ""⟩]

/-- Schedule for the race scenario: the save acquires the lock and writes
its content; the rollback then runs from start to finish; the save resumes
and releases. -/
def c3sched : List Bool :=
  [false, false, false] ++ List.replicate 8 true ++ [false, false]

/-! Helper lemmas about the merge layer and the concurrency model. -/

theorem applyOps_eq_union (r : Finset Op) (l : List Op) :
    applyOps r l = r ∪ l.toFinset := by
  induction l generalizing r with
  | nil => simp [applyOps]
  | cons a t ih =>
    show applyOps (applyOp r a) t = _
    rw [ih, applyOp, List.toFinset_cons, Finset.insert_union, Finset.union_insert]

theorem runSys_append (s : Sys) (u v : List Bool) :
    runSys s (u ++ v) = runSys (runSys s u) v := by
  induction u generalizing s with
  | nil => rfl
  | cons w ws ih =>
    show runSys (stepSys s w).1 (ws ++ v) = runSys (runSys (stepSys s w).1 ws) v
    exact ih _

theorem stepTask_of_done (sh : Shared) (t : Task) (h : t.pc = 100) :
    stepTask sh t = (sh, t, none) := by
  obtain ⟨k, pc, st, tg, m, rs⟩ := t
  cases k <;> simp_all [stepTask, stepSave, stepRollback]

theorem runSys_of_bDone (s : Sys) (hb : s.b.pc = 100) (w : List Bool) :
    runSys s w = runA (w.count false) s := by
  induction w generalizing s with
  | nil => rfl
  | cons x tl ih =>
    cases x with
    | true =>
      have hstep : (stepSys s true).1 = s := by
        simp [stepSys, stepTask_of_done s.sh s.b hb]
      rw [show runSys s (true :: tl) = runSys (stepSys s true).1 tl from rfl, hstep, ih s hb]
      simp [List.count_cons]
    | false =>
      have hb' : ((stepSys s false).1).b.pc = 100 := by
        simp [stepSys]; exact hb
      rw [show runSys s (false :: tl) = runSys (stepSys s false).1 tl from rfl, ih _ hb']
      have hc : (false :: tl).count false = tl.count false + 1 := by simp
      rw [hc]
      show runA (tl.count false) (stepSys s false).1
        = runSys s (List.replicate (tl.count false + 1) false)
      rw [List.replicate_succ]
      rfl

theorem runA_add (m n : Nat) (s : Sys) : runA (m + n) s = runA n (runA m s) := by
  show runSys s (List.replicate (m + n) false) = _
  rw [List.replicate_add, runSys_append]
  rfl

theorem runSys_of_done (s : Sys) (ha : s.a.pc = 100) (hb : s.b.pc = 100) (w : List Bool) :
    runSys s w = s := by
  induction w with
  | nil => rfl
  | cons x tl ih =>
    cases x with
    | true =>
      have hstep : (stepSys s true).1 = s := by
        simp [stepSys, stepTask_of_done s.sh s.b hb]
      rw [show runSys s (true :: tl) = runSys (stepSys s true).1 tl from rfl, hstep, ih]
    | false =>
      have hstep : (stepSys s false).1 = s := by
        simp [stepSys, stepTask_of_done s.sh s.a ha]
      rw [show runSys s (false :: tl) = runSys (stepSys s false).1 tl from rfl, hstep, ih]

theorem runSys_bDone (sh : Shared) (a : Task) (kb : TaskKind) (t1 t2 t3 : String)
    (r2 : Option Resp) (w : List Bool) :
    runSys ⟨sh, a, ⟨kb, 100, t1, t2, t3, r2⟩⟩ w
      = runA (w.count false) ⟨sh, a, ⟨kb, 100, t1, t2, t3, r2⟩⟩ :=
  runSys_of_bDone _ rfl w

theorem runSys_done (sh : Shared) (ka : TaskKind) (s1 s2 s3 : String) (r1 : Option Resp)
    (kb : TaskKind) (t1 t2 t3 : String) (r2 : Option Resp) (w : List Bool) :
    runSys ⟨sh, ⟨ka, 100, s1, s2, s3, r1⟩, ⟨kb, 100, t1, t2, t3, r2⟩⟩ w
      = ⟨sh, ⟨ka, 100, s1, s2, s3, r1⟩, ⟨kb, 100, t1, t2, t3, r2⟩⟩ :=
  runSys_of_done _ rfl rfl w

/-! Claims. -/

/-- Claim C2 (amended): a save requested by a user with role reader, or
with no grant, fails with Forbidden before any mutation — the document and
the lock map are untouched; the rollback endpoint, however, performs no
permission check at all: its outcome is independent of the requester's
role. -/
theorem c2_amended_permission :
    (∀ (lockHeld : Bool) (d : Option DocState) (c nh : String) (f : Fault) (role : Option Role),
        role = none ∨ role = some Role.reader →
        saveHandler ⟨role, lockHeld, d⟩ c nh f = ⟨SaveResp.forbidden, d, lockHeld⟩) ∧
    (∀ (r1 r2 : Option Role) (d : Option DocState) (h nh : String),
        rollbackEndpoint r1 d h nh = rollbackEndpoint r2 d h nh) := by
  constructor
  · rintro lockHeld d c nh f role (rfl | rfl)
    · rfl
    · simp [saveHandler]
  · intro r1 r2 d h nh
    cases d <;> rfl

/-- Counterexample for C2 as stated: a rollback requested with role reader
does not fail with Forbidden — it succeeds and a new commit is created
(the history grows from one commit to two). -/
theorem c2_counterexample :
    (rollbackEndpoint (some Role.reader) (some d0) "h0" "h9").1 = RbResp.success ∧
    ((rollbackEndpoint (some Role.reader) (some d0) "h0" "h9").2.map (fun s => s.repo.length))
      = some 2 := by
  decide

/-- Witness for the amended C2. -/
theorem c2_witness :
    saveHandler ⟨some Role.reader, false, some d0⟩ "x" "h9" Fault.nofault
      = ⟨SaveResp.forbidden, some d0, false⟩ ∧
    rollbackEndpoint (some Role.reader) (some d0) "h0" "h9"
      = rollbackEndpoint none (some d0) "h0" "h9" :=
  ⟨c2_amended_permission.1 false (some d0) "x" "h9" Fault.nofault (some Role.reader) (Or.inr rfl),
   c2_amended_permission.2 (some Role.reader) none (some d0) "h0" "h9"⟩

/-- Claim C3 (amended): a rollback request does not wait for an in-flight
save — the rollback handler never reads or writes the per-document lock
(every rollback step leaves the lock unchanged, and its behaviour is
independent of the lock's value), so it proceeds immediately and its file
write and commit can interleave with an in-flight save's steps. -/
theorem c3_amended_rollback_ignores_lock :
    ∀ (h : String) (sh : Shared) (t : Task) (b : Bool),
      ((stepRollback h sh t).1).lock = sh.lock ∧
      (stepRollback h { sh with lock := b } t).1 = { (stepRollback h sh t).1 with lock := b } ∧
      (stepRollback h { sh with lock := b } t).2 = (stepRollback h sh t).2 := by
  intro h sh t b
  unfold stepRollback
  split_ifs <;> exact ⟨rfl, rfl, rfl⟩

/-- Counterexample for C3 as stated: a concrete interleaving in which the
rollback arrives while a save is in flight (after the save acquired the
lock and wrote its content) and, far from waiting, runs to completion —
its file write and commit land strictly between the save's acquire and
release — after which the save finds the rolled-back content at HEAD and
commits nothing, silently losing "NEW CONTENT". -/
theorem c3_counterexample :
    (runEv c3sys c3sched).2
      = [Ev.saveAcquire, Ev.saveWrite, Ev.rbWrite, Ev.rbAdd, Ev.rbCommit, Ev.saveRelease] ∧
    (runEv c3sys c3sched).1.a.resp = some Resp.ok ∧
    (runEv c3sys c3sched).1.b.resp = some Resp.ok ∧
    (runEv c3sys c3sched).1.sh.repo.length = 3 := by
  decide

/-- Claim C4: single-flight save.  Task `a` saves `cA`, task `b` saves
`cB`.  If `b`'s lock check runs at a point where the save `a` is still in
flight (the lock is held after `a`'s first `k` steps; `a` has at most 7
steps, so `k ≤ 6`), and `a` is afterwards scheduled often enough to
finish, then `b` is coalesced into a no-op success and exactly one commit
is created in total — zero when the saved content equals the head
content. -/
theorem c4_single_flight (cA cB f0 : String) (repo0 : List Commit) (k : Nat) (w : List Bool)
    (hk : k ≤ 6)
    (hl : (runSys (sys0 cA (mkSaveTask cB) f0 repo0) (List.replicate k false)).sh.lock = true)
    (hw : 6 ≤ w.count false) :
    (runSys (sys0 cA (mkSaveTask cB) f0 repo0)
        (List.replicate k false ++ true :: w)).b.resp = some Resp.coalesced ∧
    (runSys (sys0 cA (mkSaveTask cB) f0 repo0)
        (List.replicate k false ++ true :: w)).a.resp = some Resp.ok ∧
    (runSys (sys0 cA (mkSaveTask cB) f0 repo0)
        (List.replicate k false ++ true :: w)).sh.repo.length
      = repo0.length + (if cA = headC repo0 then 0 else 1) := by
  rw [runSys_append]
  interval_cases k <;> by_cases hc : cA = headC repo0 <;>
    first
      | (exfalso
         revert hl
         simp [runSys, stepSys, stepTask, stepSave, sys0, mkSaveTask, hc]
         done)
      | (obtain ⟨r, hr⟩ : ∃ r, w.count false = 6 + r := ⟨w.count false - 6, by omega⟩
         simp only [List.replicate]
         simp [runSys, stepSys, stepTask, stepSave, sys0, mkSaveTask, hc]
         rw [runSys_bDone, hr, runA_add]
         simp [runA, List.replicate, runSys, stepSys, stepTask, stepSave, hc]
         rw [runSys_done]
         simp [hc])

/-- Witness for C4: a second save arriving right after the first acquired
the lock is coalesced, and one commit results. -/
theorem c4_witness :
    (runSys (sys0 "x" (mkSaveTask "y") "" [⟨"h0", "Create document demo", ""⟩])
        (List.replicate 1 false ++ true :: List.replicate 6 false)).b.resp
      = some Resp.coalesced ∧
    (runSys (sys0 "x" (mkSaveTask "y") "" [⟨"h0", "Create document demo", ""⟩])
        (List.replicate 1 false ++ true :: List.replicate 6 false)).a.resp
      = some Resp.ok ∧
    (runSys (sys0 "x" (mkSaveTask "y") "" [⟨"h0", "Create document demo", ""⟩])
        (List.replicate 1 false ++ true :: List.replicate 6 false)).sh.repo.length
      = [(⟨"h0", "Create document demo", ""⟩ : Commit)].length
        + (if "x" = headC [⟨"h0", "Create document demo", ""⟩] then 0 else 1) :=
  c4_single_flight "x" "y" "" [⟨"h0", "Create document demo", ""⟩] 1 (List.replicate 6 false)
    (by decide) (by decide) (by decide)

/-- Claim C5 (code bug evaluation): rolling back to a hash that does not
exist in the document's chain does not fail with NotFound — the handler's
catch turns the failed `git show` into empty content, so the stored
content is erased and a new commit with empty content is appended. -/
theorem c5_rollback_absent_hash :
    rollbackEndpoint none (some d0) "zzz" "h9"
      = (RbResp.success,
         some ⟨[⟨"h9", "Revert to previous version", ""⟩,
                ⟨"h0", "Create document demo", "Hello"⟩], ""⟩) := by
  decide

/-- Claim C6: a save whose content is byte-identical to the head's content
creates no new commit — the handler answers ok, writes the file, and the
history is unchanged. -/
theorem c6_noop_save (st : DocState) (r : Role) (c nh : String)
    (hr : r = Role.owner ∨ r = Role.writer) (hc : c = headC st.repo) :
    saveHandler ⟨some r, false, some st⟩ c nh Fault.nofault
      = ⟨SaveResp.ok, some { st with file := c }, false⟩ := by
  rcases hr with rfl | rfl <;> simp [saveHandler, hc]

/-- Witness for C6. -/
theorem c6_witness :
    saveHandler ⟨some Role.writer, false, some d0⟩ "Hello" "h9" Fault.nofault
      = ⟨SaveResp.ok, some { d0 with file := "Hello" }, false⟩ :=
  c6_noop_save d0 Role.writer "Hello" "h9" (Or.inr rfl) (by decide)

/-- Claim C7: the per-document save lock is released on every exit path of
a save that acquired it — success, document-not-found, and both I/O
failure points — so afterwards no entry remains and a later save is not
coalesced. -/
theorem c7_lock_released (r : Role) (d : Option DocState) (c nh : String) (f : Fault)
    (hr : r = Role.owner ∨ r = Role.writer) :
    (saveHandler ⟨some r, false, d⟩ c nh f).lockAfter = false ∧
    (saveHandler ⟨some r, false, d⟩ c nh f).resp ≠ SaveResp.okQueued := by
  rcases hr with rfl | rfl <;> cases d <;> cases f <;>
    simp [saveHandler] <;> split <;> simp

/-- Witness for C7 on the I/O-failure path. -/
theorem c7_witness :
    (saveHandler ⟨some Role.owner, false, some d0⟩ "x" "h9" Fault.atGit).lockAfter = false ∧
    (saveHandler ⟨some Role.owner, false, some d0⟩ "x" "h9" Fault.atGit).resp
      ≠ SaveResp.okQueued :=
  c7_lock_released Role.owner (some d0) "x" "h9" Fault.atGit (Or.inl rfl)

/-- Claim C8 (merge layer modelled from the spec): applying the same set of
operations to a replica in any two orders, with arbitrary duplication,
yields identical materialized content; moreover application of operations
is commutative, idempotent, and batch application is associative. -/
theorem c8_convergence (r : Finset Op) (l1 l2 : List Op)
    (hmem : l1.toFinset = l2.toFinset) :
    materialize (applyOps r l1) = materialize (applyOps r l2) ∧
    (∀ (s : Finset Op) (a b : Op), applyOp (applyOp s a) b = applyOp (applyOp s b) a) ∧
    (∀ (s : Finset Op) (a : Op), applyOp (applyOp s a) a = applyOp s a) ∧
    (∀ (s : Finset Op) (m1 m2 : List Op), applyOps s (m1 ++ m2) = applyOps (applyOps s m1) m2) := by
  refine ⟨?_, ?_, ?_, ?_⟩
  · rw [applyOps_eq_union, applyOps_eq_union, hmem]
  · intro s a b
    simp [applyOp, Finset.Insert.comm]
  · intro s a
    simp [applyOp]
  · intro s m1 m2
    simp [applyOps, List.foldl_append]

/-- Witness for C8: duplicated, reordered delivery of two inserts
materializes identically. -/
theorem c8_witness :
    materialize (applyOps ∅ [opA, opB, opA]) = materialize (applyOps ∅ [opB, opA]) :=
  (c8_convergence ∅ [opA, opB, opA] [opB, opA] (by decide)).1

/-- Claim C9 (amended): the client's create handler silently ignores an
empty name (no request is sent, so no mutation, but also no Invalid
error), while the server endpoint itself performs no name validation: for
any name — the empty string included — it inserts the document row,
initializes the repository and creates the initial commit. -/
theorem c9_amended_create :
    clientSendsCreateRequest "" = false ∧
    (∀ (name : String) (uid did : Nat) (ih : String),
      (createHandler name uid did false ih).resp = CreateResp.ok ∧
      (createHandler name uid did false ih).inserted = true ∧
      (createHandler name uid did false ih).repo.length = 1) := by
  exact ⟨rfl, fun name uid did ih => ⟨rfl, rfl, rfl⟩⟩

/-- Counterexample for C9 as stated: creating a document with an empty
name via the server endpoint does not fail with Invalid — it succeeds,
inserts the record, and creates the repository with its initial commit. -/
theorem c9_counterexample :
    (createHandler "" 1 7 false "h0").resp = CreateResp.ok ∧
    (createHandler "" 1 7 false "h0").inserted = true ∧
    (createHandler "" 1 7 false "h0").repo = [⟨"h0", "Create document ", ""⟩] := by
  decide

/-- Claim C10: role resolution gives document ownership precedence over
the permissions table — for the document's owner the answer is owner no
matter what the permissions table says; the table is consulted only for
non-owners; a user with neither ownership nor a grant, or a query for an
absent document, resolves to none. -/
theorem c10_owner_precedence (docs : List (Nat × Nat)) (perms : List (Nat × Nat × Role))
    (u did : Nat) :
    (∀ dp, docs.find? (fun d => d.1 == did) = some dp → dp.2 = u →
        getUserDocumentRole docs perms u did = some Role.owner) ∧
    (∀ dp pr, docs.find? (fun d => d.1 == did) = some dp → dp.2 ≠ u →
        perms.find? (fun q => q.1 == did && q.2.1 == u) = some pr →
        getUserDocumentRole docs perms u did = some pr.2.2) ∧
    (∀ dp, docs.find? (fun d => d.1 == did) = some dp → dp.2 ≠ u →
        perms.find? (fun q => q.1 == did && q.2.1 == u) = none →
        getUserDocumentRole docs perms u did = none) ∧
    (docs.find? (fun d => d.1 == did) = none →
        getUserDocumentRole docs perms u did = none) := by
  refine ⟨?_, ?_, ?_, ?_⟩
  · intro dp hf ho
    simp [getUserDocumentRole, hf, ho]
  · intro dp pr hf ho hp
    simp [getUserDocumentRole, hf, ho, hp]
  · intro dp hf ho hp
    simp [getUserDocumentRole, hf, ho, hp]
  · intro hf
    simp [getUserDocumentRole, hf]

/-- Witness for C10: the owner keeps role owner even with a reader grant
row; a non-owner resolves through the table; no grant resolves to none. -/
theorem c10_witness :
    getUserDocumentRole [(1, 10)] [(1, 10, Role.reader)] 10 1 = some Role.owner ∧
    getUserDocumentRole [(1, 10)] [(1, 7, Role.writer)] 7 1 = some Role.writer ∧
    getUserDocumentRole [(1, 10)] [] 7 1 = none :=
  ⟨(c10_owner_precedence [(1, 10)] [(1, 10, Role.reader)] 10 1).1 (1, 10) (by decide) rfl,
   (c10_owner_precedence [(1, 10)] [(1, 7, Role.writer)] 7 1).2.1 (1, 10) (1, 7, Role.writer)
     (by decide) (by decide) (by decide),
   (c10_owner_precedence [(1, 10)] [] 7 1).2.2.1 (1, 10) (by decide) (by decide) (by decide)⟩

end CollabDocs
